import Mathlib

/-!
Shallow embedding of the igb_uio PCI/UIO kernel module
(`lib/librte_eal/linuxapp/igb_uio/igb_uio.c`).

Machine integers are modelled as `Nat` with explicit truncation where the C
code truncates (assignment of a wider value to `uint16_t`, writing a 16-bit
word into the low half of a 32-bit dword).  Hardware interaction (MMIO
writes, MMIO read-backs, PCI config-space accesses, kernel log output) is
recorded as an explicit event trace so that ordering and write-count
properties can be stated.  Bus primitives that can fail (config accessors,
`ioremap`, `pci_enable_msix`, ...) are parametrised by an explicit
environment/oracle, reflecting that they are external collaborators.
-/

/-! ## Constants from the source -/

def PCI_MSIX_ENTRY_SIZE : Nat := 16
def PCI_MSIX_ENTRY_VECTOR_CTRL : Nat := 12
def PCI_MSIX_ENTRY_CTRL_MASKBIT : Nat := 1
/-- Constant `PCI_COMMAND_INTX_DISABLE` from `linux/pci_regs.h`: bit 10 of the
command register. -/
def PCI_COMMAND_INTX_DISABLE : Nat := 0x400
/-- Constant `PCI_STATUS_INTERRUPT` from `linux/pci_regs.h`: bit 3 of the status
register. -/
def PCI_STATUS_INTERRUPT : Nat := 0x8
def IGBUIO_NUM_MSI_VECTORS : Nat := 1
def MAX_UIO_MAPS : Nat := 5
def UIO_MEM_PHYS : Nat := 1
def IRQF_SHARED : Nat := 0x80

/-! ## Interrupt mode -/

/-- The C `enum igbuio_intr_mode`; `legacy = 0` is the value `udev->mode` gets
from `udev->mode = 0` in probe. -/
inductive IgbuioIntrMode where
  | legacy
  | msi
  | msix
deriving DecidableEq, Repr

/-! ## Hardware event traces -/

/-- One observable hardware/kernel interaction performed by the mask
controller or the interrupt handler.  `mirrorUpdate` records the moment
`desc->masked` is assigned, so that its ordering relative to the MMIO
write and the read-back flush is visible in the trace. -/
inductive HwEvent where
  /-- The MMIO write `writel(v, desc->mask_base + off)` -/
  | msixWrite (off v : Nat)
  /-- The read-back `readl(desc->mask_base)`, the posted-write flush -/
  | msixReadTableBase
  /-- assignment `desc->masked = v` -/
  | mirrorUpdate (v : Nat)
  /-- A config read `pci_read_config_dword(pdev, PCI_COMMAND, &v)` returning `v` -/
  | cfgReadDword (v : Nat)
  /-- A config write `pci_write_config_word(pdev, PCI_COMMAND, v)` -/
  | cfgWriteWord (v : Nat)
  /-- A kernel log `printk(...)` -/
  | logMsg
deriving DecidableEq, Repr

/-- Number of hardware writes (MMIO or config-space) in a trace. -/
def hwWriteCount (tr : List HwEvent) : Nat :=
  tr.countP (fun e =>
    match e with
    | .msixWrite _ _ => true
    | .cfgWriteWord _ => true
    | _ => false)

/-- Number of kernel-log events in a trace. -/
def logCount (tr : List HwEvent) : Nat :=
  tr.countP (fun e => e = HwEvent.logMsg)

/-! ## Device state -/

/-- One `struct msi_desc` on `pdev->msi_list`, together with the hardware
MSI-X vector-control dword it controls.  `masked` is the in-memory mirror
`desc->masked`; `hwVecCtrl` is the 32-bit word the device holds at byte
offset `entry_nr * PCI_MSIX_ENTRY_SIZE + PCI_MSIX_ENTRY_VECTOR_CTRL` from
`desc->mask_base`. -/
structure MsixEntryState where
  entry_nr : Nat
  masked : Nat
  hwVecCtrl : Nat
deriving DecidableEq, Repr

/-- The part of `struct rte_uio_pci_dev` and its PCI device that the
steady-state paths (mask controller, irqcontrol, irq handler) read and
write.  `cfg` is the 32-bit command/status dword at offset `PCI_COMMAND`
(command in the low 16 bits, status in the high 16 bits). -/
structure UioDev where
  mode : IgbuioIntrMode
  msix_list : List MsixEntryState
  cfg : Nat
deriving DecidableEq, Repr

/-- Result of a mask-controller style call: C return value, new device
state, hardware event trace in program order. -/
structure SimResult where
  ret : Int
  dev : UioDev
  trace : List HwEvent
deriving DecidableEq, Repr

/-! ## `igbuio_msix_mask_irq` -/

/-- Function `igbuio_msix_mask_irq(desc, state)`:
```
uint32_t mask_bits = desc->masked;
unsigned offset = desc->msi_attrib.entry_nr * PCI_MSIX_ENTRY_SIZE +
                  PCI_MSIX_ENTRY_VECTOR_CTRL;
if (state != 0) mask_bits &= ~PCI_MSIX_ENTRY_CTRL_MASKBIT;
else            mask_bits |= PCI_MSIX_ENTRY_CTRL_MASKBIT;
if (mask_bits != desc->masked) {
    writel(mask_bits, desc->mask_base + offset);
    readl(desc->mask_base);
    desc->masked = mask_bits;
}
```
`~PCI_MSIX_ENTRY_CTRL_MASKBIT` on the 32-bit `mask_bits` is
`0xFFFFFFFF ^^^ PCI_MSIX_ENTRY_CTRL_MASKBIT`. -/
def igbuio_msix_mask_irq (desc : MsixEntryState) (state : Int) :
    MsixEntryState × List HwEvent :=
  let offset := desc.entry_nr * PCI_MSIX_ENTRY_SIZE + PCI_MSIX_ENTRY_VECTOR_CTRL
  let mask_bits :=
    if state ≠ 0 then desc.masked &&& (0xFFFFFFFF ^^^ PCI_MSIX_ENTRY_CTRL_MASKBIT)
    else desc.masked ||| PCI_MSIX_ENTRY_CTRL_MASKBIT
  if mask_bits ≠ desc.masked then
    ({ desc with masked := mask_bits, hwVecCtrl := mask_bits },
     [.msixWrite offset mask_bits, .msixReadTableBase, .mirrorUpdate mask_bits])
  else
    (desc, [])

/-- The `list_for_each_entry(desc, &pdev->msi_list, list)` loop of
`igbuio_set_interrupt_mask`, applied descriptor by descriptor in list
order. -/
def msixMaskList (l : List MsixEntryState) (state : Int) :
    List MsixEntryState × List HwEvent :=
  match l with
  | [] => ([], [])
  | d :: ds =>
    let r := igbuio_msix_mask_irq d state
    let rs := msixMaskList ds state
    (r.1 :: rs.1, r.2 ++ rs.2)

/-! ## `igbuio_set_interrupt_mask` -/

/-- Function `igbuio_set_interrupt_mask(udev, state)`.  The two PCI config-space
accessors are bus primitives that may fail; the C code discards their
return values, so failure is modelled by the oracle flags `cfgReadFail`
and `cfgWriteFail`: a failed `pci_read_config_dword` leaves `~0` in the
output variable (the kernel accessor contract) and a failed
`pci_write_config_word` leaves the hardware register unchanged.  In the
legacy branch, `old` is the `uint16_t` truncation of the dword, and
`old & ~PCI_COMMAND_INTX_DISABLE` assigned to a `uint16_t` is
`old &&& (0xFFFF ^^^ PCI_COMMAND_INTX_DISABLE)`.  The function returns 0
on every path. -/
def igbuio_set_interrupt_mask (cfgReadFail cfgWriteFail : Bool)
    (udev : UioDev) (state : Int) : SimResult :=
  match udev.mode with
  | .msix =>
    let r := msixMaskList udev.msix_list state
    { ret := 0, dev := { udev with msix_list := r.1 }, trace := r.2 }
  | .legacy =>
    let status := if cfgReadFail then 0xFFFFFFFF else udev.cfg
    let old := status % 0x10000
    let nw :=
      if state ≠ 0 then old &&& (0xFFFF ^^^ PCI_COMMAND_INTX_DISABLE)
      else old ||| PCI_COMMAND_INTX_DISABLE
    if old ≠ nw then
      { ret := 0,
        dev := { udev with
                 cfg := if cfgWriteFail then udev.cfg
                        else udev.cfg / 0x10000 * 0x10000 + nw },
        trace := [.cfgReadDword status, .cfgWriteWord nw] }
    else
      { ret := 0, dev := udev, trace := [.cfgReadDword status] }
  | .msi => { ret := 0, dev := udev, trace := [] }

/-- Specialisation of `igbuio_set_interrupt_mask` to a fault-free bus, the normal case. -/
def setInterruptMask (udev : UioDev) (state : Int) : SimResult :=
  igbuio_set_interrupt_mask false false udev state

/-! ## `igbuio_pci_irqcontrol` and `igbuio_pci_irqhandler` -/

/-- Function `igbuio_pci_irqcontrol(info, irq_state)`: takes the spinlock and the
config-space guard (not represented in the sequential embedding), calls
`igbuio_set_interrupt_mask(udev, irq_state)` and returns 0. -/
def igbuio_pci_irqcontrol (udev : UioDev) (irq_state : Int) : SimResult :=
  let r := setInterruptMask udev irq_state
  { ret := 0, dev := r.dev, trace := r.trace }

/-- The C `irqreturn_t`. -/
inductive IrqReturn where
  | irqNone
  | irqHandled
deriving DecidableEq, Repr

structure IrqResult where
  ret : IrqReturn
  dev : UioDev
  trace : List HwEvent
deriving DecidableEq, Repr

/-- Function `igbuio_pci_irqhandler(irq, info)`: in legacy mode it reads the
command/status dword, takes `status = dword >> 16` (a `uint16_t`), and
returns `IRQ_NONE` without masking when `status & PCI_STATUS_INTERRUPT`
is clear; otherwise (and in MSI/MSI-X mode unconditionally) it calls
`igbuio_set_interrupt_mask(udev, 0)` and returns `IRQ_HANDLED`.  The
final `printk` is the trailing `logMsg` event. -/
def igbuio_pci_irqhandler (udev : UioDev) : IrqResult :=
  if udev.mode = .legacy then
    let cmd_status_dword := udev.cfg
    let status := (cmd_status_dword >>> 16) % 0x10000
    if status &&& PCI_STATUS_INTERRUPT = 0 then
      { ret := .irqNone, dev := udev,
        trace := [.cfgReadDword cmd_status_dword, .logMsg] }
    else
      let r := setInterruptMask udev 0
      { ret := .irqHandled, dev := r.dev,
        trace := .cfgReadDword cmd_status_dword :: r.trace ++ [.logMsg] }
  else
    let r := setInterruptMask udev 0
    { ret := .irqHandled, dev := r.dev, trace := r.trace ++ [.logMsg] }

/-! ## Resource lifecycle: `igbuio_pci_setup_iomem`, `igbuio_pci_release_iomem`,
`igbuio_pci_probe` -/

/-- One slot of `info->mem[]` (`struct uio_mem`) once filled in by
`igbuio_pci_setup_iomem`.  An unfilled slot (left zeroed by `kzalloc`,
`internal_addr == NULL`) is `none` in the table. -/
structure UioMem where
  name : String
  addr : Nat
  internal_addr : Nat
  size : Nat
  memtype : Nat
deriving DecidableEq, Repr

/-- Observable acquisition/release actions performed by the probe path. -/
inductive ProbeEvent where
  | kzallocCtx
  | kfreeCtx
  | enableDevice
  | disableDevice
  | setDmaMask (mask : Nat)
  | requestRegions
  | releaseRegions
  | setMaster
  /-- successful `ioremap(addr, len)` returning pointer `ptr` -/
  | ioremapDone (addr len ptr : Nat)
  | iounmap (ptr : Nat)
  /-- `pci_enable_msix(pdev, entries, nvec)` with the requested `entry`
  indices and its success/failure outcome -/
  | enableMsixAttempt (entries : List Nat) (nvec : Nat) (ok : Bool)
  | disableMsix
  /-- `igbuio_pci_irqcontrol(&udev->info, 0)` issued at the end of probe -/
  | irqDisableCall
  | uioRegister
  | uioUnregister
deriving DecidableEq, Repr

/-- Outcomes of the fallible bus primitives probe calls, plus the values
the bus reports (BAR 0 base/length, `ioremap` result, the vector id that
`pci_enable_msix` assigns to entry 0, the legacy line `dev->irq`). -/
structure ProbeEnv where
  kzalloc_ok : Bool
  enable_ok : Bool
  dma_ok : Bool
  regions_ok : Bool
  bar0_addr : Nat
  bar0_len : Nat
  ioremap_ptr : Option Nat
  msix_ok : Bool
  msix_vector : Nat
  dev_irq : Nat
  register_ok : Bool
deriving DecidableEq, Repr

/-- Function `igbuio_pci_setup_iomem(dev, info, n, pci_bar, name)`:
```
addr = pci_resource_start(dev, pci_bar);
len = pci_resource_len(dev, pci_bar);
if (addr == 0 || len == 0) return -1;
internal_addr = ioremap(addr, len);
if (internal_addr == NULL) return -1;
info->mem[n] = { name, addr, internal_addr, len, UIO_MEM_PHYS };
return 0;
```
`addr`/`len` are the bus-reported values for the BAR and `ioremapResult`
is the pointer `ioremap` returns (`none` for `NULL`).  Returns the C
return value, the updated `info->mem[]` table and the acquisition
events. -/
def igbuio_pci_setup_iomem (addr len : Nat) (ioremapResult : Option Nat)
    (mem : List (Option UioMem)) (n : Nat) (name : String) :
    Int × List (Option UioMem) × List ProbeEvent :=
  if addr = 0 ∨ len = 0 then (-1, mem, [])
  else
    match ioremapResult with
    | none => (-1, mem, [])
    | some p =>
      (0,
       mem.set n (some { name := name, addr := addr, internal_addr := p,
                         size := len, memtype := UIO_MEM_PHYS }),
       [.ioremapDone addr len p])

/-- Function `igbuio_pci_release_iomem(info)`: for `i = 0 .. MAX_UIO_MAPS-1`, if
`info->mem[i].internal_addr` is non-NULL, `iounmap` it.  Returns the
release events in loop order. -/
def igbuio_pci_release_iomem (mem : List (Option UioMem)) : List ProbeEvent :=
  (List.range MAX_UIO_MAPS).filterMap (fun i =>
    match mem.getD i none with
    | some m => some (.iounmap m.internal_addr)
    | none => none)

/-- The relevant fields of `struct uio_info`. -/
structure UioInfo where
  irq : Nat
  irq_flags : Nat
  mem : List (Option UioMem)
deriving DecidableEq, Repr

/-- The probe-time view of `struct rte_uio_pci_dev`: the chosen mode, the
single `msix_entries[0]` slot (its requested `entry` index and the vector
id the kernel assigned), and the embedded `uio_info`. -/
structure RteUioPciDev where
  mode : IgbuioIntrMode
  msix_entry : Nat
  msix_vec : Nat
  info : UioInfo
deriving DecidableEq, Repr

/-- The mode-selection block of `igbuio_pci_probe` (the
`igbuio_intr_mode_preferred == IGBUIO_MSIX_INTR_MODE` branch, which the
compile-time constant makes unconditional):
```
for (vector = 0; vector < IGBUIO_NUM_MSI_VECTORS; vector++)
    udev->msix_entries[vector].entry = vector;
if (pci_enable_msix(udev->pdev, udev->msix_entries, IGBUIO_NUM_MSI_VECTORS) == 0)
    udev->mode = IGBUIO_MSIX_INTR_MODE;
else {
    pci_disable_msix(udev->pdev);
    printk(...);
}
```
With `IGBUIO_NUM_MSI_VECTORS = 1` the requested entry list is `[0]`.  On
success the kernel fills `msix_entries[0].vector` with the assigned
vector id. -/
def igbuioProbeSelectMode (env : ProbeEnv) (udev : RteUioPciDev) :
    RteUioPciDev × List ProbeEvent :=
  let udev := { udev with msix_entry := 0 }
  if env.msix_ok then
    ({ udev with mode := .msix, msix_vec := env.msix_vector },
     [.enableMsixAttempt [0] IGBUIO_NUM_MSI_VECTORS true])
  else
    (udev, [.enableMsixAttempt [0] IGBUIO_NUM_MSI_VECTORS false, .disableMsix])

/-- The `switch (udev->mode)` of probe that fills `info.irq` and
`info.irq_flags`. -/
def igbuioProbeSetIrq (env : ProbeEnv) (udev : RteUioPciDev) : RteUioPciDev :=
  match udev.mode with
  | .msix =>
    { udev with info := { udev.info with irq_flags := 0, irq := udev.msix_vec } }
  | .msi => udev
  | .legacy =>
    { udev with info := { udev.info with irq_flags := IRQF_SHARED,
                                         irq := env.dev_irq } }

/-- Function `igbuio_pci_probe(dev, id)`.  Returns the C status (`0`, `-ENOMEM` or
`-ENODEV`), the ordered trace of acquisition/release actions, and the
device context made reachable via `pci_set_drvdata`/`uio_register_device`
(`none` whenever probe fails).  The failure labels
`fail_release_iomem`/`fail_release_regions`/`fail_disable`/`fail_free`
are reproduced literally. -/
def igbuio_pci_probe (env : ProbeEnv) : Int × List ProbeEvent × Option RteUioPciDev :=
  if !env.kzalloc_ok then (-12, [], none)
  else
    let tr : List ProbeEvent := [.kzallocCtx]
    if !env.enable_ok then (-19, tr ++ [.kfreeCtx], none)
    else
      let tr := tr ++ [.enableDevice]
      if !env.dma_ok then (-19, tr ++ [.disableDevice, .kfreeCtx], none)
      else
        let tr := tr ++ [.setDmaMask 0xffffffff]
        if !env.regions_ok then (-19, tr ++ [.disableDevice, .kfreeCtx], none)
        else
          let tr := tr ++ [.requestRegions, .setMaster]
          let mem0 : List (Option UioMem) := List.replicate MAX_UIO_MAPS none
          let im := igbuio_pci_setup_iomem env.bar0_addr env.bar0_len
                      env.ioremap_ptr mem0 0 "config"
          if im.1 ≠ 0 then
            (-19, tr ++ [.releaseRegions, .disableDevice, .kfreeCtx], none)
          else
            let tr := tr ++ im.2.2
            let udev0 : RteUioPciDev :=
              { mode := .legacy, msix_entry := 0, msix_vec := 0,
                info := { irq := 0, irq_flags := 0, mem := im.2.1 } }
            let sel := igbuioProbeSelectMode env udev0
            let udev := igbuioProbeSetIrq env sel.1
            let tr := tr ++ sel.2 ++ [.irqDisableCall]
            if !env.register_ok then
              (-19,
               tr ++ igbuio_pci_release_iomem udev.info.mem
                  ++ (if udev.mode = .msix then [ProbeEvent.disableMsix] else [])
                  ++ [.releaseRegions, .disableDevice, .kfreeCtx],
               none)
            else
              (0, tr ++ [.uioRegister], some udev)

/-! ## Resource ledger

To state "exactly the resources acquired before the failing stage are
released, in reverse acquisition order", the probe trace is replayed
against a ledger: acquisitions push a resource, releases remove it and
are recorded in order.  A release of a resource that is not held is a
no-op and is not recorded, matching the semantics of the underlying
kernel primitives (`pci_disable_msix` on a device whose MSI-X is not
enabled does nothing). -/

inductive PciRes where
  | ctxMem
  | device
  | regions
  | iomapped (ptr : Nat)
  | msix
  | uioReg
deriving DecidableEq, Repr

/-- Apply a release of resource `r` to a ledger state `(held, released)`:
if `r` is held it is removed and appended to the release log, otherwise
nothing happens. -/
def relStep (st : List PciRes × List PciRes) (r : PciRes) :
    List PciRes × List PciRes :=
  if r ∈ st.1 then (st.1.erase r, st.2 ++ [r]) else st

def unwindStep (st : List PciRes × List PciRes) (e : ProbeEvent) :
    List PciRes × List PciRes :=
  match e with
  | .kzallocCtx => (.ctxMem :: st.1, st.2)
  | .enableDevice => (.device :: st.1, st.2)
  | .requestRegions => (.regions :: st.1, st.2)
  | .ioremapDone _ _ p => (.iomapped p :: st.1, st.2)
  | .enableMsixAttempt _ _ ok => (if ok then .msix :: st.1 else st.1, st.2)
  | .uioRegister => (.uioReg :: st.1, st.2)
  | .kfreeCtx => relStep st .ctxMem
  | .disableDevice => relStep st .device
  | .releaseRegions => relStep st .regions
  | .iounmap p => relStep st (.iomapped p)
  | .disableMsix => relStep st .msix
  | .uioUnregister => relStep st .uioReg
  | _ => st

/-- Replay a probe trace: first component is the resources still held,
second the effective releases in the order they happened. -/
def unwindRun (tr : List ProbeEvent) : List PciRes × List PciRes :=
  tr.foldl unwindStep ([], [])

/-- The resources acquired along a probe trace, in acquisition order. -/
def acquiredList (tr : List ProbeEvent) : List PciRes :=
  tr.filterMap (fun e =>
    match e with
    | .kzallocCtx => some .ctxMem
    | .enableDevice => some .device
    | .requestRegions => some .regions
    | .ioremapDone _ _ p => some (.iomapped p)
    | .enableMsixAttempt _ _ ok => if ok then some .msix else none
    | .uioRegister => some .uioReg
    | _ => none)

/-- The one attach path on which the code's unwind deviates from reverse
acquisition order: every stage up to and including MSI-X allocation
succeeded (so only registration can still fail). -/
def msixUnwindException (env : ProbeEnv) : Prop :=
  env.kzalloc_ok = true ∧ env.enable_ok = true ∧ env.dma_ok = true ∧
  env.regions_ok = true ∧ env.bar0_addr ≠ 0 ∧ env.bar0_len ≠ 0 ∧
  env.ioremap_ptr ≠ none ∧ env.msix_ok = true

instance (env : ProbeEnv) : Decidable (msixUnwindException env) := by
  unfold msixUnwindException; infer_instance

/-! Spec-side formalisation of "released in reverse acquisition order",
used to compare the claim with what the code's unwind path does. -/

def isAcquireEv (e : ProbeEvent) : Bool :=
  match e with
  | .kzallocCtx | .enableDevice | .requestRegions | .ioremapDone _ _ _
  | .uioRegister => true
  | .enableMsixAttempt _ _ ok => ok
  | _ => false

def isReleaseEv (e : ProbeEvent) : Bool :=
  match e with
  | .kfreeCtx | .disableDevice | .releaseRegions | .iounmap _
  | .disableMsix | .uioUnregister => true
  | _ => false

/-- The release action that undoes a given acquisition. -/
def releaseEvOf (e : ProbeEvent) : ProbeEvent :=
  match e with
  | .kzallocCtx => .kfreeCtx
  | .enableDevice => .disableDevice
  | .requestRegions => .releaseRegions
  | .ioremapDone _ _ p => .iounmap p
  | .enableMsixAttempt _ _ _ => .disableMsix
  | .uioRegister => .uioUnregister
  | e => e

/-- The claim "releases exactly the resources acquired before the failing
stage in reverse acquisition order", read off a trace: the sequence of
release events equals the reversed sequence of acquisition events, each
mapped to its undo action. -/
def reverseOrderUnwind (tr : List ProbeEvent) : Prop :=
  tr.filter isReleaseEv = ((tr.filter isAcquireEv).reverse).map releaseEvOf

instance (tr : List ProbeEvent) : Decidable (reverseOrderUnwind tr) := by
  unfold reverseOrderUnwind; infer_instance

/-! ## State predicates for the mask round-trip claim -/

/-- The device is in the state from which masking then unmasking is a
round trip: the mask/INTx-disable bit is clear and, in MSI-X mode, every
mirror is in sync with its hardware vector-control word. -/
def maskRoundTripReady (udev : UioDev) : Prop :=
  match udev.mode with
  | .legacy => (udev.cfg % 0x10000).testBit 10 = false
  | .msi => True
  | .msix => ∀ d ∈ udev.msix_list,
      d.masked < 2 ^ 32 ∧ d.masked.testBit 0 = false ∧ d.hwVecCtrl = d.masked

/-- Relation stating that `mid` agrees with `orig` on every hardware bit except possibly the
mask bit: same mode, same upper half of the command/status dword, same
command bits outside `PCI_COMMAND_INTX_DISABLE`, and descriptor-wise same
entry number and same vector-control bits outside the mask bit. -/
def onlyMaskBitChanged (orig mid : UioDev) : Prop :=
  mid.mode = orig.mode ∧
  mid.cfg / 0x10000 = orig.cfg / 0x10000 ∧
  (mid.cfg % 0x10000) &&& ((2 ^ 16 - 1) ^^^ 2 ^ 10) =
    (orig.cfg % 0x10000) &&& ((2 ^ 16 - 1) ^^^ 2 ^ 10) ∧
  List.Forall₂ (fun d0 d1 =>
    d1.entry_nr = d0.entry_nr ∧
    d1.hwVecCtrl &&& ((2 ^ 32 - 1) ^^^ 2 ^ 0) =
      d0.hwVecCtrl &&& ((2 ^ 32 - 1) ^^^ 2 ^ 0)) orig.msix_list mid.msix_list

/-- A fully successful probe environment: BAR 0 at `0x1000` of length
`0x1000`, MSI-X available assigning vector 42, legacy line 5. -/
def probeEnvAllOk : ProbeEnv where
  kzalloc_ok := true
  enable_ok := true
  dma_ok := true
  regions_ok := true
  bar0_addr := 0x1000
  bar0_len := 0x1000
  ioremap_ptr := some 0xffff0000
  msix_ok := true
  msix_vector := 42
  dev_irq := 5
  register_ok := true

/-- Same environment but with `uio_register_device` failing. -/
def probeEnvRegisterFails : ProbeEnv :=
  { probeEnvAllOk with register_ok := false }

/-! ## Bit-manipulation helper lemmas

`x & ~(1 << b)` on a `w`-bit value is `x &&& ((2^w - 1) ^^^ 2^b)`; these
lemmas relate that mask, and `x ||| 2^b`, to `testBit`. -/

lemma testBit_ge_false {m w i : Nat} (hm : m < 2 ^ w) (hw : w ≤ i) :
    m.testBit i = false :=
  Nat.testBit_lt_two_pow
    (lt_of_lt_of_le hm (Nat.pow_le_pow_right (by omega) hw))

lemma testBit_notbit_mask {w b i : Nat} (hb : b < w) :
    ((2 ^ w - 1) ^^^ 2 ^ b).testBit i =
      (decide (i < w) && !(decide (b = i))) := by
  rw [Nat.testBit_xor, Nat.testBit_two_pow_sub_one, Nat.testBit_two_pow]
  by_cases h : b = i
  · subst h; simp [hb]
  · simp [h]

/-- Clearing bit `b` leaves a value with bit `b` clear. -/
lemma testBit_land_notbit {m w b : Nat} (hb : b < w) :
    (m &&& ((2 ^ w - 1) ^^^ 2 ^ b)).testBit b = false := by
  rw [Nat.testBit_and, testBit_notbit_mask hb]
  simp

/-- Setting bit `b` leaves a value with bit `b` set. -/
lemma testBit_lor_bit {m b : Nat} : (m ||| 2 ^ b).testBit b = true := by
  rw [Nat.testBit_or, Nat.testBit_two_pow]
  simp

/-- If bit `b` is already clear, clearing it is the identity. -/
lemma land_notbit_of_testBit_false {m w b : Nat} (hm : m < 2 ^ w) (hb : b < w)
    (h : m.testBit b = false) : m &&& ((2 ^ w - 1) ^^^ 2 ^ b) = m := by
  apply Nat.eq_of_testBit_eq
  intro i
  rw [Nat.testBit_and, testBit_notbit_mask hb]
  by_cases hib : b = i
  · subst hib; simp [h]
  · by_cases hiw : i < w
    · simp [hib, hiw]
    · have hz : m.testBit i = false := testBit_ge_false hm (by omega)
      simp [hib, hiw, hz]

/-- If bit `b` is set, clearing it changes the value. -/
lemma land_notbit_ne_of_testBit_true {m w b : Nat} (hb : b < w)
    (h : m.testBit b = true) : m &&& ((2 ^ w - 1) ^^^ 2 ^ b) ≠ m := by
  intro heq
  have hbit := congrArg (fun x => Nat.testBit x b) heq
  simp only [testBit_land_notbit hb, h] at hbit
  exact Bool.noConfusion hbit

/-- If bit `b` is set, setting it is the identity. -/
lemma lor_bit_of_testBit_true {m b : Nat} (h : m.testBit b = true) :
    m ||| 2 ^ b = m := by
  apply Nat.eq_of_testBit_eq
  intro i
  rw [Nat.testBit_or, Nat.testBit_two_pow]
  by_cases hib : b = i
  · subst hib; simp [h]
  · simp [hib]

/-- If bit `b` is clear, setting it changes the value. -/
lemma lor_bit_ne_of_testBit_false {m b : Nat} (h : m.testBit b = false) :
    m ||| 2 ^ b ≠ m := by
  intro heq
  have hbit := congrArg (fun x => Nat.testBit x b) heq
  simp only [testBit_lor_bit, h] at hbit
  exact Bool.noConfusion hbit

/-- Setting bit `b` does not disturb the other bits. -/
lemma lor_bit_preserves_others {m w b : Nat} (hb : b < w) :
    (m ||| 2 ^ b) &&& ((2 ^ w - 1) ^^^ 2 ^ b) = m &&& ((2 ^ w - 1) ^^^ 2 ^ b) := by
  apply Nat.eq_of_testBit_eq
  intro i
  rw [Nat.testBit_and, Nat.testBit_and, Nat.testBit_or, Nat.testBit_xor,
    Nat.testBit_two_pow_sub_one, Nat.testBit_two_pow]
  by_cases hib : b = i
  · subst hib; simp [hb]
  · simp [hib]

/-- Clearing bit `b` does not disturb the other bits. -/
lemma land_notbit_preserves_others {m w b : Nat} :
    (m &&& ((2 ^ w - 1) ^^^ 2 ^ b)) &&& ((2 ^ w - 1) ^^^ 2 ^ b) =
      m &&& ((2 ^ w - 1) ^^^ 2 ^ b) := by
  rw [Nat.and_assoc, Nat.and_self]

/-- Clearing bit `b` after setting it restores the original value when the
bit was clear to begin with. -/
lemma land_notbit_lor_bit {m w b : Nat} (hm : m < 2 ^ w) (hb : b < w)
    (h : m.testBit b = false) :
    (m ||| 2 ^ b) &&& ((2 ^ w - 1) ^^^ 2 ^ b) = m := by
  rw [lor_bit_preserves_others hb, land_notbit_of_testBit_false hm hb h]

/-- The MSI-X `~PCI_MSIX_ENTRY_CTRL_MASKBIT` mask on a 32-bit value. -/
lemma msixNotMask_eq :
    (0xFFFFFFFF : Nat) ^^^ PCI_MSIX_ENTRY_CTRL_MASKBIT = (2 ^ 32 - 1) ^^^ 2 ^ 0 := by
  norm_num [PCI_MSIX_ENTRY_CTRL_MASKBIT]

lemma msixMaskBit_eq : PCI_MSIX_ENTRY_CTRL_MASKBIT = 2 ^ 0 := rfl

/-- The legacy `~PCI_COMMAND_INTX_DISABLE` mask on a 16-bit value. -/
lemma intxNotMask_eq :
    (0xFFFF : Nat) ^^^ PCI_COMMAND_INTX_DISABLE = (2 ^ 16 - 1) ^^^ 2 ^ 10 := by
  norm_num [PCI_COMMAND_INTX_DISABLE]

lemma intxBit_eq : PCI_COMMAND_INTX_DISABLE = 2 ^ 10 := by
  norm_num [PCI_COMMAND_INTX_DISABLE]

/-! ## Evaluation lemmas for `igbuio_msix_mask_irq` -/

/-- Unmask request on a descriptor whose mirror already has the mask bit
clear: nothing happens. -/
lemma msix_mask_irq_unmask_noop {d : MsixEntryState} {state : Int}
    (hm : d.masked < 2 ^ 32) (hs : state ≠ 0) (h : d.masked.testBit 0 = false) :
    igbuio_msix_mask_irq d state = (d, []) := by
  simp only [igbuio_msix_mask_irq]
  rw [if_pos hs, msixNotMask_eq, land_notbit_of_testBit_false hm (by norm_num) h]
  simp

/-- Unmask request on a descriptor whose mirror has the mask bit set: one
write of the mirror with bit 0 cleared, a read-back, then the mirror
update. -/
lemma msix_mask_irq_unmask_write {d : MsixEntryState} {state : Int}
    (hs : state ≠ 0) (h : d.masked.testBit 0 = true) :
    igbuio_msix_mask_irq d state =
      ({ d with masked := d.masked &&& ((2 ^ 32 - 1) ^^^ 2 ^ 0),
                hwVecCtrl := d.masked &&& ((2 ^ 32 - 1) ^^^ 2 ^ 0) },
       [.msixWrite (d.entry_nr * PCI_MSIX_ENTRY_SIZE + PCI_MSIX_ENTRY_VECTOR_CTRL)
          (d.masked &&& ((2 ^ 32 - 1) ^^^ 2 ^ 0)),
        .msixReadTableBase,
        .mirrorUpdate (d.masked &&& ((2 ^ 32 - 1) ^^^ 2 ^ 0))]) := by
  simp only [igbuio_msix_mask_irq]
  rw [if_pos hs, msixNotMask_eq,
    if_pos (land_notbit_ne_of_testBit_true (by norm_num) h)]

/-- Mask request on a descriptor whose mirror already has the mask bit
set: nothing happens. -/
lemma msix_mask_irq_mask_noop {d : MsixEntryState}
    (h : d.masked.testBit 0 = true) :
    igbuio_msix_mask_irq d 0 = (d, []) := by
  simp only [igbuio_msix_mask_irq]
  rw [if_neg (by norm_num : ¬((0 : Int) ≠ 0)), msixMaskBit_eq,
    lor_bit_of_testBit_true h]
  simp

/-- Mask request on a descriptor whose mirror has the mask bit clear: one
write of the mirror with bit 0 set, a read-back, then the mirror update. -/
lemma msix_mask_irq_mask_write {d : MsixEntryState}
    (h : d.masked.testBit 0 = false) :
    igbuio_msix_mask_irq d 0 =
      ({ d with masked := d.masked ||| 2 ^ 0, hwVecCtrl := d.masked ||| 2 ^ 0 },
       [.msixWrite (d.entry_nr * PCI_MSIX_ENTRY_SIZE + PCI_MSIX_ENTRY_VECTOR_CTRL)
          (d.masked ||| 2 ^ 0),
        .msixReadTableBase,
        .mirrorUpdate (d.masked ||| 2 ^ 0)]) := by
  simp only [igbuio_msix_mask_irq]
  rw [if_neg (by norm_num : ¬((0 : Int) ≠ 0)), msixMaskBit_eq,
    if_pos (lor_bit_ne_of_testBit_false h)]

/-- Lemma shape of `msixMaskList`: it is a structure-preserving map over the descriptor
list. -/
lemma msixMaskList_spec (l : List MsixEntryState) (state : Int) :
    msixMaskList l state =
      (l.map (fun d => (igbuio_msix_mask_irq d state).1),
       (l.map (fun d => (igbuio_msix_mask_irq d state).2)).flatten) := by
  induction l with
  | nil => simp [msixMaskList]
  | cons d ds ih => simp [msixMaskList, ih]

/-- Evaluation of `igbuio_set_interrupt_mask` on an MSI-X mode device. -/
lemma setmask_msix (rf wf : Bool) (l : List MsixEntryState) (cfg : Nat)
    (state : Int) :
    igbuio_set_interrupt_mask rf wf ⟨.msix, l, cfg⟩ state =
      { ret := 0, dev := ⟨.msix, (msixMaskList l state).1, cfg⟩,
        trace := (msixMaskList l state).2 } := rfl

/-- Evaluation of `igbuio_set_interrupt_mask` on an MSI mode device: a no-op. -/
lemma setmask_msi (rf wf : Bool) (l : List MsixEntryState) (cfg : Nat)
    (state : Int) :
    igbuio_set_interrupt_mask rf wf ⟨.msi, l, cfg⟩ state =
      { ret := 0, dev := ⟨.msi, l, cfg⟩, trace := [] } := rfl

/-! ## Evaluation lemmas for the legacy branch of
`igbuio_set_interrupt_mask` (fault-free bus) -/

/-- The 16-bit command sub-field is below `2 ^ 16`. -/
lemma mod16_lt (cfg : Nat) : cfg % 0x10000 < 2 ^ 16 := by
  have h := Nat.mod_lt cfg (show 0 < 0x10000 by norm_num)
  norm_num at h ⊢
  exact h

/-- Enable request with `PCI_COMMAND_INTX_DISABLE` already clear: only the
config read happens. -/
lemma setmask_legacy_enable_noop {l : List MsixEntryState} {cfg : Nat}
    {state : Int} (hs : state ≠ 0) (h : (cfg % 0x10000).testBit 10 = false) :
    setInterruptMask ⟨.legacy, l, cfg⟩ state =
      { ret := 0, dev := ⟨.legacy, l, cfg⟩, trace := [.cfgReadDword cfg] } := by
  simp only [setInterruptMask, igbuio_set_interrupt_mask, Bool.false_eq_true,
    if_false]
  rw [if_pos hs, intxNotMask_eq,
    land_notbit_of_testBit_false (mod16_lt cfg) (by norm_num) h]
  simp

/-- Enable request with `PCI_COMMAND_INTX_DISABLE` set: the low 16 bits of
the dword are rewritten with bit 10 cleared. -/
lemma setmask_legacy_enable_write {l : List MsixEntryState} {cfg : Nat}
    {state : Int} (hs : state ≠ 0) (h : (cfg % 0x10000).testBit 10 = true) :
    setInterruptMask ⟨.legacy, l, cfg⟩ state =
      { ret := 0,
        dev := ⟨.legacy, l,
          cfg / 0x10000 * 0x10000 + (cfg % 0x10000 &&& ((2 ^ 16 - 1) ^^^ 2 ^ 10))⟩,
        trace := [.cfgReadDword cfg,
          .cfgWriteWord (cfg % 0x10000 &&& ((2 ^ 16 - 1) ^^^ 2 ^ 10))] } := by
  simp only [setInterruptMask, igbuio_set_interrupt_mask, Bool.false_eq_true,
    if_false]
  rw [if_pos hs, intxNotMask_eq,
    if_pos (Ne.symm (land_notbit_ne_of_testBit_true (by norm_num) h))]

/-- Disable request with `PCI_COMMAND_INTX_DISABLE` already set: only the
config read happens. -/
lemma setmask_legacy_disable_noop {l : List MsixEntryState} {cfg : Nat}
    (h : (cfg % 0x10000).testBit 10 = true) :
    setInterruptMask ⟨.legacy, l, cfg⟩ 0 =
      { ret := 0, dev := ⟨.legacy, l, cfg⟩, trace := [.cfgReadDword cfg] } := by
  simp only [setInterruptMask, igbuio_set_interrupt_mask, Bool.false_eq_true,
    if_false]
  rw [if_neg (by norm_num : ¬((0 : Int) ≠ 0)), intxBit_eq,
    lor_bit_of_testBit_true h]
  simp

/-- Disable request with `PCI_COMMAND_INTX_DISABLE` clear: the low 16 bits
of the dword are rewritten with bit 10 set. -/
lemma setmask_legacy_disable_write {l : List MsixEntryState} {cfg : Nat}
    (h : (cfg % 0x10000).testBit 10 = false) :
    setInterruptMask ⟨.legacy, l, cfg⟩ 0 =
      { ret := 0,
        dev := ⟨.legacy, l, cfg / 0x10000 * 0x10000 + (cfg % 0x10000 ||| 2 ^ 10)⟩,
        trace := [.cfgReadDword cfg, .cfgWriteWord (cfg % 0x10000 ||| 2 ^ 10)] } := by
  simp only [setInterruptMask, igbuio_set_interrupt_mask, Bool.false_eq_true,
    if_false]
  rw [if_neg (by norm_num : ¬((0 : Int) ≠ 0)), intxBit_eq,
    if_pos (Ne.symm (lor_bit_ne_of_testBit_false h))]

/-! ## Claim C1 -/

/-- Claim C1: In MSI-X mode the mask controller visits every descriptor of
the msi list; for each one the mask-bit byte offset is
`entry_nr * 16 + 12` (the vector-control word) and the mask bit is bit 0;
the desired bit is `0` (unmasked) when enable (`state ≠ 0`) and `1`
(masked) when disable (`state = 0`); the hardware write is skipped
exactly when the desired bit equals the mirrored bit; and when a write is
issued it is followed by a read of the table base, with the mirror
updated only after that read-back. -/
theorem igbuio_msix_masking_protocol :
    (∀ (d : MsixEntryState) (state : Int), d.masked < 2 ^ 32 →
      ((igbuio_msix_mask_irq d state).2 = [] ↔
        d.masked.testBit 0 = decide (state = 0)) ∧
      (d.masked.testBit 0 ≠ decide (state = 0) →
        ∃ v, v.testBit 0 = decide (state = 0) ∧
          (igbuio_msix_mask_irq d state).2 =
            [HwEvent.msixWrite (d.entry_nr * 16 + 12) v,
             HwEvent.msixReadTableBase, HwEvent.mirrorUpdate v] ∧
          (igbuio_msix_mask_irq d state).1 =
            { d with masked := v, hwVecCtrl := v })) ∧
    (∀ (udev : UioDev) (state : Int), udev.mode = .msix →
      (setInterruptMask udev state).trace =
        (udev.msix_list.map (fun d => (igbuio_msix_mask_irq d state).2)).flatten ∧
      (setInterruptMask udev state).dev.msix_list =
        udev.msix_list.map (fun d => (igbuio_msix_mask_irq d state).1)) := by
  constructor
  · intro d state hm
    by_cases hs : state = 0
    · subst hs
      have hd : decide ((0 : Int) = 0) = true := by decide
      rw [hd]
      by_cases hb : d.masked.testBit 0 = true
      · rw [msix_mask_irq_mask_noop hb]
        simp [hb]
      · replace hb : d.masked.testBit 0 = false := by
          cases h0 : d.masked.testBit 0 <;> simp_all
        rw [msix_mask_irq_mask_write hb]
        refine ⟨by simp [hb], fun _ => ⟨d.masked ||| 2 ^ 0, testBit_lor_bit, ?_, rfl⟩⟩
        simp [PCI_MSIX_ENTRY_SIZE, PCI_MSIX_ENTRY_VECTOR_CTRL]
    · have hd : decide (state = 0) = false := by simp [hs]
      rw [hd]
      by_cases hb : d.masked.testBit 0 = true
      · rw [msix_mask_irq_unmask_write hs hb]
        refine ⟨by simp [hb], fun _ =>
          ⟨d.masked &&& ((2 ^ 32 - 1) ^^^ 2 ^ 0),
           testBit_land_notbit (by norm_num), ?_, rfl⟩⟩
        simp [PCI_MSIX_ENTRY_SIZE, PCI_MSIX_ENTRY_VECTOR_CTRL]
      · replace hb : d.masked.testBit 0 = false := by
          cases h0 : d.masked.testBit 0 <;> simp_all
        rw [msix_mask_irq_unmask_noop hm hs hb]
        simp [hb]
  · intro udev state hmode
    obtain ⟨m, l, cfg⟩ := udev
    cases hmode
    simp [setInterruptMask, setmask_msix, msixMaskList_spec]

/-- Witness for C1 at a concrete descriptor (`entry_nr = 2`, mirror `5`,
masked) and a concrete MSI-X device. -/
theorem igbuio_msix_masking_protocol_witness :
    ((5 : Nat) < 2 ^ 32 ∧
      (((igbuio_msix_mask_irq ⟨2, 5, 5⟩ 1).2 = []) ↔
        (5 : Nat).testBit 0 = decide ((1 : Int) = 0))) ∧
    ((⟨.msix, [⟨0, 1, 1⟩], 0⟩ : UioDev).mode = .msix ∧
      (setInterruptMask ⟨.msix, [⟨0, 1, 1⟩], 0⟩ 1).trace =
        (([⟨0, 1, 1⟩] : List MsixEntryState).map
          (fun d => (igbuio_msix_mask_irq d 1).2)).flatten) :=
  ⟨⟨by decide, (igbuio_msix_masking_protocol.1 ⟨2, 5, 5⟩ 1 (by decide)).1⟩,
   ⟨rfl, (igbuio_msix_masking_protocol.2 ⟨.msix, [⟨0, 1, 1⟩], 0⟩ 1 rfl).1⟩⟩

/-! ## Claim C4 -/

/-- Claim C4: In legacy mode, `set_mask` reads the 32-bit command/status
register, derives the 16-bit command sub-field, computes the new command
by clearing `PCI_COMMAND_INTX_DISABLE` when enable (`state ≠ 0`) and
setting it when disable (`state = 0`) while leaving every other bit of
the command unchanged, and writes the 16-bit command back only when it
differs from the old one. -/
theorem igbuio_legacy_mask_rmw (udev : UioDev) (state : Int)
    (hmode : udev.mode = .legacy) :
    ∃ nw,
      nw.testBit 10 = decide (state = 0) ∧
      nw &&& ((2 ^ 16 - 1) ^^^ 2 ^ 10) =
        (udev.cfg % 0x10000) &&& ((2 ^ 16 - 1) ^^^ 2 ^ 10) ∧
      (udev.cfg % 0x10000 = nw →
        setInterruptMask udev state =
          { ret := 0, dev := udev, trace := [.cfgReadDword udev.cfg] }) ∧
      (udev.cfg % 0x10000 ≠ nw →
        setInterruptMask udev state =
          { ret := 0,
            dev := ⟨.legacy, udev.msix_list, udev.cfg / 0x10000 * 0x10000 + nw⟩,
            trace := [.cfgReadDword udev.cfg, .cfgWriteWord nw] }) := by
  obtain ⟨m, l, cfg⟩ := udev
  cases hmode
  by_cases hs : state = 0
  · subst hs
    refine ⟨cfg % 0x10000 ||| 2 ^ 10, ?_,
      lor_bit_preserves_others (by norm_num), ?_, ?_⟩
    · rw [testBit_lor_bit]; decide
    · intro he
      cases hb : (cfg % 0x10000).testBit 10 with
      | false => exact absurd he.symm (lor_bit_ne_of_testBit_false hb)
      | true => exact setmask_legacy_disable_noop hb
    · intro hne
      cases hb : (cfg % 0x10000).testBit 10 with
      | false => exact setmask_legacy_disable_write hb
      | true => exact absurd (lor_bit_of_testBit_true hb).symm hne
  · refine ⟨cfg % 0x10000 &&& ((2 ^ 16 - 1) ^^^ 2 ^ 10), ?_,
      land_notbit_preserves_others, ?_, ?_⟩
    · rw [testBit_land_notbit (show (10 : Nat) < 16 by norm_num)]
      simp [hs]
    · intro he
      cases hb : (cfg % 0x10000).testBit 10 with
      | false => exact setmask_legacy_enable_noop hs hb
      | true =>
        exact absurd he.symm
          (land_notbit_ne_of_testBit_true (show (10 : Nat) < 16 by norm_num) hb)
    · intro hne
      cases hb : (cfg % 0x10000).testBit 10 with
      | false =>
        exact absurd
          (land_notbit_of_testBit_false (mod16_lt cfg) (by norm_num) hb).symm hne
      | true => exact setmask_legacy_enable_write hs hb

/-- Witness for C4: legacy device with command `0x0006` (INTx-disable
clear), disable request. -/
theorem igbuio_legacy_mask_rmw_witness :
    (⟨.legacy, [], 6⟩ : UioDev).mode = .legacy ∧
    ∃ nw,
      nw.testBit 10 = decide ((0 : Int) = 0) ∧
      nw &&& ((2 ^ 16 - 1) ^^^ 2 ^ 10) =
        ((6 : Nat) % 0x10000) &&& ((2 ^ 16 - 1) ^^^ 2 ^ 10) ∧
      ((6 : Nat) % 0x10000 = nw →
        setInterruptMask ⟨.legacy, [], 6⟩ 0 =
          { ret := 0, dev := ⟨.legacy, [], 6⟩, trace := [.cfgReadDword 6] }) ∧
      ((6 : Nat) % 0x10000 ≠ nw →
        setInterruptMask ⟨.legacy, [], 6⟩ 0 =
          { ret := 0, dev := ⟨.legacy, [], 6 / 0x10000 * 0x10000 + nw⟩,
            trace := [.cfgReadDword 6, .cfgWriteWord nw] }) :=
  ⟨rfl, igbuio_legacy_mask_rmw ⟨.legacy, [], 6⟩ 0 rfl⟩

/-! ## Claim C2 -/

/-- Claim C2: The interrupt handler: in legacy mode with the
status-register interrupt-pending bit (the status sub-field is the upper
16 bits of the command/status dword) clear, it returns `IRQ_NONE`,
performs no hardware write and leaves the device unchanged; otherwise
(pending bit set in legacy mode, or MSI/MSI-X mode) it invokes the mask
controller with `enable = false` (state `0`) and returns `IRQ_HANDLED`. -/
theorem igbuio_irqhandler_shared_line (udev : UioDev) :
    ((udev.mode = .legacy ∧
        ((udev.cfg >>> 16) % 0x10000) &&& PCI_STATUS_INTERRUPT = 0) →
      (igbuio_pci_irqhandler udev).ret = .irqNone ∧
      hwWriteCount (igbuio_pci_irqhandler udev).trace = 0 ∧
      (igbuio_pci_irqhandler udev).dev = udev) ∧
    ((udev.mode ≠ .legacy ∨
        ((udev.cfg >>> 16) % 0x10000) &&& PCI_STATUS_INTERRUPT ≠ 0) →
      (igbuio_pci_irqhandler udev).ret = .irqHandled ∧
      (igbuio_pci_irqhandler udev).dev = (setInterruptMask udev 0).dev ∧
      ∃ pre post, (igbuio_pci_irqhandler udev).trace =
        pre ++ (setInterruptMask udev 0).trace ++ post) := by
  obtain ⟨m, l, cfg⟩ := udev
  cases m
  · by_cases hp : ((cfg >>> 16) % 0x10000) &&& PCI_STATUS_INTERRUPT = 0
    · constructor
      · intro _
        simp only [igbuio_pci_irqhandler, if_true]
        rw [if_pos hp]
        refine ⟨rfl, ?_, rfl⟩
        simp [hwWriteCount, List.countP, List.countP.go]
      · rintro (hmode | hpend)
        · exact absurd rfl hmode
        · exact absurd hp hpend
    · constructor
      · rintro ⟨_, h0⟩
        exact absurd h0 hp
      · intro _
        simp only [igbuio_pci_irqhandler, if_true]
        rw [if_neg hp]
        exact ⟨rfl, rfl, [.cfgReadDword cfg], [.logMsg], by simp⟩
  · constructor
    · rintro ⟨hmode, _⟩
      exact absurd hmode (by simp)
    · intro _
      exact ⟨rfl, rfl, [], [.logMsg], by
        simp [igbuio_pci_irqhandler]⟩
  · constructor
    · rintro ⟨hmode, _⟩
      exact absurd hmode (by simp)
    · intro _
      exact ⟨rfl, rfl, [], [.logMsg], by
        simp [igbuio_pci_irqhandler]⟩

/-- Witness for C2: a legacy device whose status interrupt-pending bit is
clear (`cfg = 0x00060006`). -/
theorem igbuio_irqhandler_shared_line_witness :
    (((⟨.legacy, [], 0x60006⟩ : UioDev).mode = .legacy ∧
        (((0x60006 : Nat) >>> 16) % 0x10000) &&& PCI_STATUS_INTERRUPT = 0) ∧
      (igbuio_pci_irqhandler ⟨.legacy, [], 0x60006⟩).ret = .irqNone ∧
      hwWriteCount (igbuio_pci_irqhandler ⟨.legacy, [], 0x60006⟩).trace = 0 ∧
      (igbuio_pci_irqhandler ⟨.legacy, [], 0x60006⟩).dev = ⟨.legacy, [], 0x60006⟩) :=
  ⟨⟨rfl, by decide⟩,
   (igbuio_irqhandler_shared_line ⟨.legacy, [], 0x60006⟩).1 ⟨rfl, by decide⟩⟩

/-! ## Claim C10 -/

/-- Function `igbuio_set_interrupt_mask` only tests whether `state` is zero, so
any nonzero state behaves like `1`. -/
lemma setmask_state_nonzero (rf wf : Bool) (udev : UioDev) {s : Int}
    (hs : s ≠ 0) :
    igbuio_set_interrupt_mask rf wf udev s =
      igbuio_set_interrupt_mask rf wf udev 1 := by
  obtain ⟨m, l, cfg⟩ := udev
  cases m
  · simp only [igbuio_set_interrupt_mask]
    rw [if_pos hs, if_pos (by norm_num : (1 : Int) ≠ 0)]
  · rfl
  · simp only [igbuio_set_interrupt_mask]
    have hlist : ∀ (l : List MsixEntryState),
        msixMaskList l s = msixMaskList l 1 := by
      intro l
      induction l with
      | nil => rfl
      | cons d ds ih =>
        simp only [msixMaskList, ih]
        have hd : igbuio_msix_mask_irq d s = igbuio_msix_mask_irq d 1 := by
          simp only [igbuio_msix_mask_irq]
          rw [if_pos hs, if_pos (by norm_num : (1 : Int) ≠ 0)]
        rw [hd]
    rw [hlist]

/-- Claim C10: The user-space irq-control entry point returns `0` for every
`irq_state` value and every mode; every nonzero `irq_state` is treated
exactly like `1` (enable), only `0` means disable; in MSI mode the call
is a no-op. -/
theorem igbuio_irqcontrol_total (udev : UioDev) (s : Int) :
    (igbuio_pci_irqcontrol udev s).ret = 0 ∧
    (s ≠ 0 → igbuio_pci_irqcontrol udev s = igbuio_pci_irqcontrol udev 1) ∧
    (udev.mode = .msi →
      (igbuio_pci_irqcontrol udev s).dev = udev ∧
      (igbuio_pci_irqcontrol udev s).trace = []) := by
  refine ⟨rfl, ?_, ?_⟩
  · intro hs
    simp only [igbuio_pci_irqcontrol, setInterruptMask,
      setmask_state_nonzero false false udev hs]
  · intro hmode
    obtain ⟨m, l, cfg⟩ := udev
    cases hmode
    exact ⟨rfl, rfl⟩

/-- Witness for C10 at `irq_state = -7` on an MSI-mode device. -/
theorem igbuio_irqcontrol_total_witness :
    ((-7 : Int) ≠ 0 ∧
      igbuio_pci_irqcontrol ⟨.msi, [], 0⟩ (-7) =
        igbuio_pci_irqcontrol ⟨.msi, [], 0⟩ 1) ∧
    ((⟨.msi, [], 0⟩ : UioDev).mode = .msi ∧
      (igbuio_pci_irqcontrol ⟨.msi, [], 0⟩ (-7)).dev = ⟨.msi, [], 0⟩ ∧
      (igbuio_pci_irqcontrol ⟨.msi, [], 0⟩ (-7)).trace = []) :=
  ⟨⟨by decide, (igbuio_irqcontrol_total ⟨.msi, [], 0⟩ (-7)).2.1 (by decide)⟩,
   ⟨rfl, (igbuio_irqcontrol_total ⟨.msi, [], 0⟩ (-7)).2.2 rfl⟩⟩

/-! ## Claim C5 -/

lemma hwWriteCount_append (a b : List HwEvent) :
    hwWriteCount (a ++ b) = hwWriteCount a + hwWriteCount b :=
  List.countP_append _ _ _

/-- Each per-descriptor MSI-X mask call issues at most one write. -/
lemma msix_mask_irq_write_count (d : MsixEntryState) (state : Int) :
    hwWriteCount (igbuio_msix_mask_irq d state).2 ≤ 1 := by
  simp only [igbuio_msix_mask_irq]
  split <;> split <;> simp [hwWriteCount, List.countP, List.countP.go]

/-- Re-running the per-descriptor MSI-X mask call with the same request
does nothing: the mirror already equals the desired state. -/
lemma msix_mask_irq_idem (d : MsixEntryState) (state : Int) :
    igbuio_msix_mask_irq (igbuio_msix_mask_irq d state).1 state =
      ((igbuio_msix_mask_irq d state).1, []) := by
  by_cases hs : state = 0
  · subst hs
    by_cases hc : d.masked ||| PCI_MSIX_ENTRY_CTRL_MASKBIT = d.masked
    · have h1 : igbuio_msix_mask_irq d 0 = (d, []) := by
        simp only [igbuio_msix_mask_irq]
        rw [if_neg (by norm_num : ¬((0 : Int) ≠ 0))]
        rw [if_neg (by simp [hc])]
      rw [h1, h1]
    · have h1 : igbuio_msix_mask_irq d 0 =
          ({ d with masked := d.masked ||| PCI_MSIX_ENTRY_CTRL_MASKBIT,
                    hwVecCtrl := d.masked ||| PCI_MSIX_ENTRY_CTRL_MASKBIT },
           [.msixWrite (d.entry_nr * PCI_MSIX_ENTRY_SIZE + PCI_MSIX_ENTRY_VECTOR_CTRL)
              (d.masked ||| PCI_MSIX_ENTRY_CTRL_MASKBIT),
            .msixReadTableBase,
            .mirrorUpdate (d.masked ||| PCI_MSIX_ENTRY_CTRL_MASKBIT)]) := by
        simp only [igbuio_msix_mask_irq]
        rw [if_neg (by norm_num : ¬((0 : Int) ≠ 0))]
        rw [if_pos hc]
      rw [h1]
      simp only [igbuio_msix_mask_irq]
      rw [if_neg (by norm_num : ¬((0 : Int) ≠ 0))]
      rw [if_neg (by simp [Nat.or_assoc])]
  · by_cases hc : d.masked &&& (0xFFFFFFFF ^^^ PCI_MSIX_ENTRY_CTRL_MASKBIT) = d.masked
    · have h1 : igbuio_msix_mask_irq d state = (d, []) := by
        simp only [igbuio_msix_mask_irq]
        rw [if_pos hs]
        rw [if_neg (by simp [hc])]
      rw [h1, h1]
    · have h1 : igbuio_msix_mask_irq d state =
          ({ d with masked := d.masked &&& (0xFFFFFFFF ^^^ PCI_MSIX_ENTRY_CTRL_MASKBIT),
                    hwVecCtrl := d.masked &&& (0xFFFFFFFF ^^^ PCI_MSIX_ENTRY_CTRL_MASKBIT) },
           [.msixWrite (d.entry_nr * PCI_MSIX_ENTRY_SIZE + PCI_MSIX_ENTRY_VECTOR_CTRL)
              (d.masked &&& (0xFFFFFFFF ^^^ PCI_MSIX_ENTRY_CTRL_MASKBIT)),
            .msixReadTableBase,
            .mirrorUpdate (d.masked &&& (0xFFFFFFFF ^^^ PCI_MSIX_ENTRY_CTRL_MASKBIT))]) := by
        simp only [igbuio_msix_mask_irq]
        rw [if_pos hs]
        rw [if_pos hc]
      rw [h1]
      simp only [igbuio_msix_mask_irq]
      rw [if_pos hs]
      rw [if_neg (by simp [Nat.and_assoc])]

/-- Claim C5: the call `set_mask(enable = true)` is idempotent with respect to
hardware traffic: for a device context with at most one MSI-X descriptor
(the driver allocates exactly `IGBUIO_NUM_MSI_VECTORS = 1`), or in legacy
or MSI mode, calling it twice in a row issues no write on the second call
and at most one write in total. -/
theorem igbuio_set_mask_idempotent (udev : UioDev)
    (h : udev.msix_list.length ≤ 1) :
    hwWriteCount (setInterruptMask (setInterruptMask udev 1).dev 1).trace = 0 ∧
    hwWriteCount ((setInterruptMask udev 1).trace ++
      (setInterruptMask (setInterruptMask udev 1).dev 1).trace) ≤ 1 := by
  obtain ⟨m, l, cfg⟩ := udev
  cases m
  · -- legacy
    cases hb : (cfg % 0x10000).testBit 10 with
    | false =>
      rw [setmask_legacy_enable_noop (by norm_num) hb]
      rw [setmask_legacy_enable_noop (by norm_num) hb]
      simp [hwWriteCount, List.countP, List.countP.go]
    | true =>
      rw [setmask_legacy_enable_write (by norm_num) hb]
      have hnw : cfg % 0x10000 &&& ((2 ^ 16 - 1) ^^^ 2 ^ 10) < 65536 := by
        have h1 : cfg % 0x10000 &&& ((2 ^ 16 - 1) ^^^ 2 ^ 10) ≤ cfg % 0x10000 :=
          Nat.and_le_left
        have h2 : cfg % 0x10000 < 65536 := Nat.mod_lt _ (by norm_num)
        omega
      have hmod : (cfg / 0x10000 * 0x10000 +
          (cfg % 0x10000 &&& ((2 ^ 16 - 1) ^^^ 2 ^ 10))) % 0x10000 =
          cfg % 0x10000 &&& ((2 ^ 16 - 1) ^^^ 2 ^ 10) := by omega
      have hb2 : ((cfg / 0x10000 * 0x10000 +
          (cfg % 0x10000 &&& ((2 ^ 16 - 1) ^^^ 2 ^ 10))) % 0x10000).testBit 10
          = false := by
        rw [hmod]
        exact testBit_land_notbit (by norm_num)
      rw [setmask_legacy_enable_noop (by norm_num) hb2]
      simp [hwWriteCount, List.countP, List.countP.go]
  · -- msi
    simp [setInterruptMask, setmask_msi, hwWriteCount]
  · -- msix, at most one descriptor
    cases l with
    | nil =>
      simp [setInterruptMask, setmask_msix, msixMaskList, hwWriteCount]
    | cons d ds =>
      cases ds with
      | cons e es => simp at h
      | nil =>
        have h1 : setInterruptMask ⟨.msix, [d], cfg⟩ 1 =
            { ret := 0, dev := ⟨.msix, [(igbuio_msix_mask_irq d 1).1], cfg⟩,
              trace := (igbuio_msix_mask_irq d 1).2 } := by
          rw [setInterruptMask, setmask_msix, msixMaskList_spec]
          simp
        have h2 : setInterruptMask ⟨.msix, [(igbuio_msix_mask_irq d 1).1], cfg⟩ 1 =
            { ret := 0, dev := ⟨.msix, [(igbuio_msix_mask_irq d 1).1], cfg⟩,
              trace := [] } := by
          rw [setInterruptMask, setmask_msix, msixMaskList_spec]
          simp [msix_mask_irq_idem d 1]
        rw [h1, h2]
        refine ⟨rfl, ?_⟩
        rw [hwWriteCount_append]
        simpa [hwWriteCount] using msix_mask_irq_write_count d 1

/-- Witness for C5: one masked MSI-X descriptor. -/
theorem igbuio_set_mask_idempotent_witness :
    ((⟨.msix, [⟨0, 1, 1⟩], 0⟩ : UioDev).msix_list.length ≤ 1 ∧
      hwWriteCount (setInterruptMask
        (setInterruptMask ⟨.msix, [⟨0, 1, 1⟩], 0⟩ 1).dev 1).trace = 0 ∧
      hwWriteCount ((setInterruptMask ⟨.msix, [⟨0, 1, 1⟩], 0⟩ 1).trace ++
        (setInterruptMask (setInterruptMask ⟨.msix, [⟨0, 1, 1⟩], 0⟩ 1).dev 1).trace)
        ≤ 1) :=
  ⟨by decide, igbuio_set_mask_idempotent ⟨.msix, [⟨0, 1, 1⟩], 0⟩ (by decide)⟩

/-! ## Claim C6 -/

/-- Claim C6 counterexample: The round trip `set_mask(false); set_mask(true)`
does *not* restore every initial hardware state: a legacy device whose
`PCI_COMMAND_INTX_DISABLE` bit is already set (`cfg = 0x400`) ends with
the bit cleared, a different bit pattern from the initial one. -/
theorem igbuio_mask_roundtrip_cex :
    (setInterruptMask (setInterruptMask ⟨.legacy, [], 0x400⟩ 0).dev 1).dev ≠
      (⟨.legacy, [], 0x400⟩ : UioDev) := by
  decide

/-- Round trip of a single in-sync, initially-unmasked MSI-X descriptor. -/
lemma msix_roundtrip_entry {d : MsixEntryState} (hm : d.masked < 2 ^ 32)
    (hb : d.masked.testBit 0 = false) (hw : d.hwVecCtrl = d.masked) :
    (igbuio_msix_mask_irq (igbuio_msix_mask_irq d 0).1 1).1 = d ∧
    ((igbuio_msix_mask_irq d 0).1).entry_nr = d.entry_nr ∧
    ((igbuio_msix_mask_irq d 0).1).hwVecCtrl &&& ((2 ^ 32 - 1) ^^^ 2 ^ 0) =
      d.hwVecCtrl &&& ((2 ^ 32 - 1) ^^^ 2 ^ 0) := by
  obtain ⟨n, mk, hv⟩ := d
  simp only at hm hb hw
  subst hw
  rw [msix_mask_irq_mask_write hb]
  refine ⟨?_, rfl, lor_bit_preserves_others (by norm_num)⟩
  rw [msix_mask_irq_unmask_write (by norm_num) testBit_lor_bit]
  simp only [MsixEntryState.mk.injEq]
  have hr := land_notbit_lor_bit hm (show (0 : Nat) < 32 by norm_num) hb
  exact ⟨trivial, hr, hr⟩

/-- Round trip of a descriptor list that is `maskRoundTripReady`. -/
lemma msix_roundtrip_list (l : List MsixEntryState)
    (h : ∀ d ∈ l, d.masked < 2 ^ 32 ∧ d.masked.testBit 0 = false ∧
      d.hwVecCtrl = d.masked) :
    (l.map (fun d => (igbuio_msix_mask_irq d 0).1)).map
        (fun d => (igbuio_msix_mask_irq d 1).1) = l ∧
    List.Forall₂ (fun d0 d1 =>
      d1.entry_nr = d0.entry_nr ∧
      d1.hwVecCtrl &&& ((2 ^ 32 - 1) ^^^ 2 ^ 0) =
        d0.hwVecCtrl &&& ((2 ^ 32 - 1) ^^^ 2 ^ 0))
      l (l.map (fun d => (igbuio_msix_mask_irq d 0).1)) := by
  induction l with
  | nil => exact ⟨rfl, List.Forall₂.nil⟩
  | cons d ds ih =>
    have hd := h d (by simp)
    have hds := ih (fun e he => h e (by simp [he]))
    have he := msix_roundtrip_entry hd.1 hd.2.1 hd.2.2
    refine ⟨?_, List.Forall₂.cons ⟨he.2.1, he.2.2⟩ hds.2⟩
    simp only [List.map_cons, List.map_map] at hds ⊢
    rw [he.1]
    have := hds.1
    simp only [List.map_map] at this
    rw [this]

/-- Claim C6 amended: Starting from an initially-unmasked device whose
MSI-X mirrors are in sync with hardware, `set_mask(false)` followed by
`set_mask(true)` restores the exact pre-masking hardware bit pattern, and
the intermediate (masked) state differs from the initial one in no bit
other than the mask/INTx-disable bit. -/
theorem igbuio_mask_roundtrip_restore (udev : UioDev)
    (h : maskRoundTripReady udev) :
    (setInterruptMask (setInterruptMask udev 0).dev 1).dev = udev ∧
    onlyMaskBitChanged udev (setInterruptMask udev 0).dev := by
  obtain ⟨m, l, cfg⟩ := udev
  cases m
  · -- legacy
    have hb : (cfg % 0x10000).testBit 10 = false := h
    rw [setmask_legacy_disable_write hb]
    have hor : cfg % 0x10000 ||| 2 ^ 10 < 65536 := by
      have := Nat.or_lt_two_pow (mod16_lt cfg)
        (show (2 : Nat) ^ 10 < 2 ^ 16 by norm_num)
      simpa using this
    have hmod1 : (cfg / 0x10000 * 0x10000 + (cfg % 0x10000 ||| 2 ^ 10)) % 0x10000 =
        cfg % 0x10000 ||| 2 ^ 10 := by omega
    have hdiv1 : (cfg / 0x10000 * 0x10000 + (cfg % 0x10000 ||| 2 ^ 10)) / 0x10000 =
        cfg / 0x10000 := by omega
    have hb1 : ((cfg / 0x10000 * 0x10000 + (cfg % 0x10000 ||| 2 ^ 10)) % 0x10000).testBit 10
        = true := by rw [hmod1]; exact testBit_lor_bit
    rw [setmask_legacy_enable_write (by norm_num) hb1]
    have hfinal : (cfg / 0x10000 * 0x10000 + (cfg % 0x10000 ||| 2 ^ 10)) / 0x10000 * 0x10000 +
        ((cfg / 0x10000 * 0x10000 + (cfg % 0x10000 ||| 2 ^ 10)) % 0x10000 &&&
          ((2 ^ 16 - 1) ^^^ 2 ^ 10)) = cfg := by
      rw [hmod1, hdiv1, land_notbit_lor_bit (mod16_lt cfg) (by norm_num) hb]
      omega
    rw [hfinal]
    refine ⟨rfl, rfl, hdiv1, ?_, ?_⟩
    · rw [hmod1, lor_bit_preserves_others (show (10 : Nat) < 16 by norm_num)]
    · exact (List.forall₂_same).2 (fun d _ => ⟨rfl, rfl⟩)
  · -- msi
    exact ⟨rfl, rfl, rfl, rfl, (List.forall₂_same).2 (fun d _ => ⟨rfl, rfl⟩)⟩
  · -- msix
    have hl := msix_roundtrip_list l h
    have h0 : setInterruptMask ⟨.msix, l, cfg⟩ 0 =
        { ret := 0,
          dev := ⟨.msix, l.map (fun d => (igbuio_msix_mask_irq d 0).1), cfg⟩,
          trace := (l.map (fun d => (igbuio_msix_mask_irq d 0).2)).flatten } := by
      rw [setInterruptMask, setmask_msix, msixMaskList_spec]
    have h1 : setInterruptMask
          ⟨.msix, l.map (fun d => (igbuio_msix_mask_irq d 0).1), cfg⟩ 1 =
        { ret := 0,
          dev := ⟨.msix, (l.map (fun d => (igbuio_msix_mask_irq d 0).1)).map
            (fun d => (igbuio_msix_mask_irq d 1).1), cfg⟩,
          trace := ((l.map (fun d => (igbuio_msix_mask_irq d 0).1)).map
            (fun d => (igbuio_msix_mask_irq d 1).2)).flatten } := by
      rw [setInterruptMask, setmask_msix, msixMaskList_spec]
    rw [h0, h1]
    simp only
    rw [hl.1]
    exact ⟨rfl, rfl, rfl, rfl, hl.2⟩

/-- Witness for C6 (amended): a legacy device with command `0x0006` and
one in-sync unmasked MSI-X descriptor device. -/
theorem igbuio_mask_roundtrip_restore_witness :
    (maskRoundTripReady ⟨.legacy, [], 0x12340006⟩ ∧
      (setInterruptMask (setInterruptMask ⟨.legacy, [], 0x12340006⟩ 0).dev 1).dev =
        (⟨.legacy, [], 0x12340006⟩ : UioDev) ∧
      onlyMaskBitChanged ⟨.legacy, [], 0x12340006⟩
        (setInterruptMask ⟨.legacy, [], 0x12340006⟩ 0).dev) :=
  have hready : maskRoundTripReady ⟨.legacy, [], 0x12340006⟩ :=
    show ((0x12340006 : Nat) % 0x10000).testBit 10 = false by decide
  ⟨hready, igbuio_mask_roundtrip_restore ⟨.legacy, [], 0x12340006⟩ hready⟩

/-! ## Claim C3 -/

/-- Claim C3: Mode selection at attach is deterministic and single-shot:
exactly one MSI-X allocation request is made, for exactly one vector
bound to entry index 0; on success the mode becomes MSI-X and the
assigned vector id is recorded as the registered irq; on failure the
partial allocation is released (`pci_disable_msix`) and the mode falls
back to legacy — never MSI — so selection as a whole cannot fail. -/
theorem igbuio_probe_mode_selection (env : ProbeEnv) (udev : RteUioPciDev)
    (hmode : udev.mode = .legacy) :
    (igbuioProbeSelectMode env udev).2.filter (fun e =>
        match e with
        | .enableMsixAttempt _ _ _ => true
        | _ => false) =
      [.enableMsixAttempt [0] IGBUIO_NUM_MSI_VECTORS env.msix_ok] ∧
    (env.msix_ok = true →
      (igbuioProbeSelectMode env udev).1.mode = .msix ∧
      (igbuioProbeSelectMode env udev).1.msix_vec = env.msix_vector ∧
      (igbuioProbeSetIrq env (igbuioProbeSelectMode env udev).1).info.irq =
        env.msix_vector) ∧
    (env.msix_ok = false →
      (igbuioProbeSelectMode env udev).1.mode = .legacy ∧
      ProbeEvent.disableMsix ∈ (igbuioProbeSelectMode env udev).2) ∧
    (igbuioProbeSelectMode env udev).1.mode ≠ .msi := by
  obtain ⟨m, me, mv, info⟩ := udev
  cases hmode
  cases hok : env.msix_ok with
  | false =>
    refine ⟨by simp [igbuioProbeSelectMode, hok, List.filter], ?_, ?_, ?_⟩
    · intro hc; cases hc
    · intro _
      exact ⟨by simp [igbuioProbeSelectMode, hok],
        by simp [igbuioProbeSelectMode, hok]⟩
    · simp [igbuioProbeSelectMode, hok]
  | true =>
    refine ⟨by simp [igbuioProbeSelectMode, hok, List.filter], ?_, ?_, ?_⟩
    · intro _
      refine ⟨by simp [igbuioProbeSelectMode, hok],
        by simp [igbuioProbeSelectMode, hok], ?_⟩
      simp [igbuioProbeSelectMode, igbuioProbeSetIrq, hok]
    · intro hc; cases hc
    · simp [igbuioProbeSelectMode, hok]

/-- Witness for C3 at the all-successful environment and the zeroed
device context probe builds. -/
theorem igbuio_probe_mode_selection_witness :
    (⟨.legacy, 0, 0, ⟨0, 0, []⟩⟩ : RteUioPciDev).mode = .legacy ∧
    (igbuioProbeSelectMode probeEnvAllOk ⟨.legacy, 0, 0, ⟨0, 0, []⟩⟩).2.filter
        (fun e =>
          match e with
          | .enableMsixAttempt _ _ _ => true
          | _ => false) =
      [.enableMsixAttempt [0] IGBUIO_NUM_MSI_VECTORS probeEnvAllOk.msix_ok] ∧
    (probeEnvAllOk.msix_ok = true →
      (igbuioProbeSelectMode probeEnvAllOk ⟨.legacy, 0, 0, ⟨0, 0, []⟩⟩).1.mode = .msix ∧
      (igbuioProbeSelectMode probeEnvAllOk ⟨.legacy, 0, 0, ⟨0, 0, []⟩⟩).1.msix_vec =
        probeEnvAllOk.msix_vector ∧
      (igbuioProbeSetIrq probeEnvAllOk
        (igbuioProbeSelectMode probeEnvAllOk ⟨.legacy, 0, 0, ⟨0, 0, []⟩⟩).1).info.irq =
        probeEnvAllOk.msix_vector) ∧
    (probeEnvAllOk.msix_ok = false →
      (igbuioProbeSelectMode probeEnvAllOk ⟨.legacy, 0, 0, ⟨0, 0, []⟩⟩).1.mode = .legacy ∧
      ProbeEvent.disableMsix ∈
        (igbuioProbeSelectMode probeEnvAllOk ⟨.legacy, 0, 0, ⟨0, 0, []⟩⟩).2) ∧
    (igbuioProbeSelectMode probeEnvAllOk ⟨.legacy, 0, 0, ⟨0, 0, []⟩⟩).1.mode ≠ .msi :=
  ⟨rfl, igbuio_probe_mode_selection probeEnvAllOk ⟨.legacy, 0, 0, ⟨0, 0, []⟩⟩ rfl⟩

/-! ## Claim C7 -/

/-- Claim C7 counterexample: When attach fails at the registration stage
after MSI-X succeeded, the resources released are *not* in reverse
acquisition order: the code releases the iomem mapping before disabling
MSI-X, although the mapping was acquired before MSI-X was enabled. -/
theorem igbuio_probe_unwind_order_cex :
    (igbuio_pci_probe probeEnvRegisterFails).1 < 0 ∧
    ¬ reverseOrderUnwind (igbuio_pci_probe probeEnvRegisterFails).2.1 := by
  decide

/-- Function `igbuio_pci_release_iomem` emits `iounmap p` exactly when some slot
among the `MAX_UIO_MAPS` slots is mapped with pointer `p`. -/
lemma release_iomem_mem_iff (mem : List (Option UioMem)) (p : Nat) :
    ProbeEvent.iounmap p ∈ igbuio_pci_release_iomem mem ↔
      ∃ i, i < MAX_UIO_MAPS ∧
        ∃ m, mem.getD i none = some m ∧ m.internal_addr = p := by
  simp only [igbuio_pci_release_iomem, List.mem_filterMap, List.mem_range]
  constructor
  · rintro ⟨i, hi, hf⟩
    cases hm : mem.getD i none with
    | none => rw [hm] at hf; cases hf
    | some m =>
      rw [hm] at hf
      simp only [Option.some.injEq, ProbeEvent.iounmap.injEq] at hf
      exact ⟨i, hi, m, hm, hf⟩
  · rintro ⟨i, hi, m, hm, hp⟩
    refine ⟨i, hi, ?_⟩
    rw [hm]
    simp [hp]

/-- Claim C7 amended: Every failing attach returns a negative status,
leaves no device context reachable, and releases exactly the resources
acquired before the failing stage (the ledger drains to empty; a release
of a never-acquired resource, the defensive `pci_disable_msix` after a
failed MSI-X allocation, is a no-op and not an effective release).  The
effective releases happen in reverse acquisition order on every failure
path except the one where all stages up to MSI-X succeeded and
registration failed: there the release sequence is the reverse
acquisition order with its first two elements swapped — the iomem
mapping is unmapped before MSI-X is disabled, although it was acquired
earlier (see the counterexample).  The shared unmap routine is safe on a
partially populated table: it emits an unmap exactly for the slots with
a mapped pointer. -/
theorem igbuio_probe_unwind_exact :
    (∀ env : ProbeEnv, (igbuio_pci_probe env).1 < 0 →
      (unwindRun (igbuio_pci_probe env).2.1).1 = [] ∧
      (igbuio_pci_probe env).2.2 = none ∧
      (¬ msixUnwindException env →
        (unwindRun (igbuio_pci_probe env).2.1).2 =
          (acquiredList (igbuio_pci_probe env).2.1).reverse) ∧
      (msixUnwindException env →
        ∃ p pre,
          acquiredList (igbuio_pci_probe env).2.1 =
            pre ++ [PciRes.iomapped p, PciRes.msix] ∧
          (unwindRun (igbuio_pci_probe env).2.1).2 =
            [PciRes.iomapped p, PciRes.msix] ++ pre.reverse)) ∧
    (∀ (mem : List (Option UioMem)) (p : Nat),
      ProbeEvent.iounmap p ∈ igbuio_pci_release_iomem mem ↔
        ∃ i, i < MAX_UIO_MAPS ∧
          ∃ m, mem.getD i none = some m ∧ m.internal_addr = p) := by
  refine ⟨?_, release_iomem_mem_iff⟩
  intro env hfail
  cases hk : env.kzalloc_ok with
  | false =>
    simp [igbuio_pci_probe, hk, unwindRun, unwindStep, relStep, acquiredList,
      msixUnwindException]
  | true =>
  cases he : env.enable_ok with
  | false =>
    simp [igbuio_pci_probe, hk, he, unwindRun, unwindStep, relStep,
      acquiredList, msixUnwindException, List.erase_cons, beq_iff_eq]
  | true =>
  cases hd : env.dma_ok with
  | false =>
    simp [igbuio_pci_probe, hk, he, hd, unwindRun, unwindStep, relStep,
      acquiredList, msixUnwindException, List.erase_cons, beq_iff_eq]
  | true =>
  cases hr : env.regions_ok with
  | false =>
    simp [igbuio_pci_probe, hk, he, hd, hr, unwindRun, unwindStep, relStep,
      acquiredList, msixUnwindException, List.erase_cons, beq_iff_eq]
  | true =>
  by_cases hz : env.bar0_addr = 0 ∨ env.bar0_len = 0
  · have hzn : ¬ msixUnwindException env := by
      rcases hz with hz | hz <;>
        exact fun hex => by
          rcases hex with ⟨-, -, -, -, ha, hl, -, -⟩
          first
            | exact ha hz
            | exact hl hz
    simp [igbuio_pci_probe, hk, he, hd, hr, igbuio_pci_setup_iomem, hz, hzn,
      unwindRun, unwindStep, relStep, acquiredList, List.erase_cons,
      beq_iff_eq]
  · cases hp : env.ioremap_ptr with
    | none =>
      have hzn : ¬ msixUnwindException env := fun hex => hex.2.2.2.2.2.2.1 hp
      simp [igbuio_pci_probe, hk, he, hd, hr, igbuio_pci_setup_iomem, hz, hp,
        hzn, unwindRun, unwindStep, relStep, acquiredList, List.erase_cons,
      beq_iff_eq]
    | some ptr =>
      cases hg : env.register_ok with
      | true =>
        rw [igbuio_pci_probe] at hfail
        simp [hk, he, hd, hr, igbuio_pci_setup_iomem, hz, hp, hg] at hfail
      | false =>
        push_neg at hz
        cases hx : env.msix_ok with
        | true =>
          have hex : msixUnwindException env :=
            ⟨hk, he, hd, hr, hz.1, hz.2, by rw [hp]; exact fun h => Option.noConfusion h, hx⟩
          refine ⟨?_, ?_, fun hne => absurd hex hne, fun _ =>
            ⟨ptr, [PciRes.ctxMem, PciRes.device, PciRes.regions], ?_, ?_⟩⟩ <;>
            simp [igbuio_pci_probe, hk, he, hd, hr, igbuio_pci_setup_iomem,
              hz.1, hz.2, hp, hg, hx, igbuioProbeSelectMode, igbuioProbeSetIrq,
              igbuio_pci_release_iomem, MAX_UIO_MAPS, List.range_succ,
              unwindRun, unwindStep, relStep, acquiredList, List.erase_cons,
      beq_iff_eq]
        | false =>
          have hzn : ¬ msixUnwindException env := fun hex => by
            have h8 : env.msix_ok = true := hex.2.2.2.2.2.2.2
            rw [hx] at h8
            exact Bool.noConfusion h8
          simp [igbuio_pci_probe, hk, he, hd, hr, igbuio_pci_setup_iomem,
            hz.1, hz.2, hp, hg, hx, hzn, igbuioProbeSelectMode,
            igbuioProbeSetIrq, igbuio_pci_release_iomem, MAX_UIO_MAPS,
            List.range_succ, unwindRun, unwindStep, relStep, acquiredList,
            List.erase_cons, beq_iff_eq]

/-- Witness for C7 (amended): registration failure with MSI-X enabled —
the exceptional path, with its swapped release pair — and a partially
populated region table for the unmap routine. -/
theorem igbuio_probe_unwind_exact_witness :
    ((igbuio_pci_probe probeEnvRegisterFails).1 < 0 ∧
      (unwindRun (igbuio_pci_probe probeEnvRegisterFails).2.1).1 = [] ∧
      (igbuio_pci_probe probeEnvRegisterFails).2.2 = none ∧
      (msixUnwindException probeEnvRegisterFails ∧
        ∃ p pre,
          acquiredList (igbuio_pci_probe probeEnvRegisterFails).2.1 =
            pre ++ [PciRes.iomapped p, PciRes.msix] ∧
          (unwindRun (igbuio_pci_probe probeEnvRegisterFails).2.1).2 =
            [PciRes.iomapped p, PciRes.msix] ++ pre.reverse)) ∧
    (ProbeEvent.iounmap 0xffff0000 ∈ igbuio_pci_release_iomem
        [none, some ⟨"config", 0x1000, 0xffff0000, 0x1000, 1⟩, none, none, none] ↔
      ∃ i, i < MAX_UIO_MAPS ∧
        ∃ m, ([none, some ⟨"config", 0x1000, 0xffff0000, 0x1000, 1⟩, none, none,
            none] : List (Option UioMem)).getD i none = some m ∧
          m.internal_addr = 0xffff0000) :=
  have h := igbuio_probe_unwind_exact.1 probeEnvRegisterFails (by decide)
  ⟨⟨by decide, h.1, h.2.1, by decide, h.2.2.2 (by decide)⟩,
   igbuio_probe_unwind_exact.2
     [none, some ⟨"config", 0x1000, 0xffff0000, 0x1000, 1⟩, none, none, none]
     0xffff0000⟩

/-! ## Claim C8 -/

/-- Claim C8 counterexample: The two failure causes of `map_region` are not
distinguishable: a zero BAR base (the `InvalidResource` situation) and a
failing mapping primitive (the `MapFailed` situation) both return the
same error code `-1`. -/
theorem igbuio_setup_iomem_indistinct_cex :
    (igbuio_pci_setup_iomem 0 0x1000 (some 0xffff0000)
        (List.replicate MAX_UIO_MAPS none) 0 "config").1 = -1 ∧
    (igbuio_pci_setup_iomem 0x1000 0x1000 none
        (List.replicate MAX_UIO_MAPS none) 0 "config").1 = -1 ∧
    (igbuio_pci_setup_iomem 0 0x1000 (some 0xffff0000)
        (List.replicate MAX_UIO_MAPS none) 0 "config").1 =
      (igbuio_pci_setup_iomem 0x1000 0x1000 none
        (List.replicate MAX_UIO_MAPS none) 0 "config").1 := by
  decide

/-- Claim C8 amended: `map_region` fails — always with the single error
code `-1` — exactly when the BAR base or length is zero or the mapping
primitive cannot satisfy the request; on success it returns `0` and
records name, physical address, mapped pointer, length and memory type in
the region table at the requested index. -/
theorem igbuio_setup_iomem_spec (addr len : Nat) (iop : Option Nat)
    (mem : List (Option UioMem)) (n : Nat) (name : String) :
    ((igbuio_pci_setup_iomem addr len iop mem n name).1 = -1 ↔
      (addr = 0 ∨ len = 0 ∨ iop = none)) ∧
    (∀ p, iop = some p → addr ≠ 0 → len ≠ 0 →
      (igbuio_pci_setup_iomem addr len iop mem n name).1 = 0 ∧
      (igbuio_pci_setup_iomem addr len iop mem n name).2.1 =
        mem.set n (some ⟨name, addr, p, len, UIO_MEM_PHYS⟩)) := by
  by_cases hz : addr = 0 ∨ len = 0
  · constructor
    · rcases hz with hz | hz <;> subst hz <;> simp [igbuio_pci_setup_iomem]
    · rintro p hp ha hl
      rcases hz with hz | hz
      · exact absurd hz ha
      · exact absurd hz hl
  · cases hp : iop with
    | none =>
      constructor
      · simp [igbuio_pci_setup_iomem, hz]
      · rintro p hps
        cases hps
    | some q =>
      constructor
      · simp [igbuio_pci_setup_iomem, hz]
      · rintro p hps ha hl
        cases hps
        simp [igbuio_pci_setup_iomem, hz]

/-- Witness for C8 (amended): a successful mapping of BAR base `0x1000`,
length `0x2000`, pointer `0xffffc000` into slot 0. -/
theorem igbuio_setup_iomem_spec_witness :
    (((igbuio_pci_setup_iomem 0x1000 0x2000 (some 0xffffc000)
          (List.replicate MAX_UIO_MAPS none) 0 "config").1 = -1 ↔
        ((0x1000 : Nat) = 0 ∨ (0x2000 : Nat) = 0 ∨
          (some 0xffffc000 : Option Nat) = none)) ∧
      ((some 0xffffc000 : Option Nat) = some 0xffffc000 ∧ (0x1000 : Nat) ≠ 0 ∧
        (0x2000 : Nat) ≠ 0 ∧
        (igbuio_pci_setup_iomem 0x1000 0x2000 (some 0xffffc000)
          (List.replicate MAX_UIO_MAPS none) 0 "config").1 = 0 ∧
        (igbuio_pci_setup_iomem 0x1000 0x2000 (some 0xffffc000)
          (List.replicate MAX_UIO_MAPS none) 0 "config").2.1 =
          (List.replicate MAX_UIO_MAPS none).set 0
            (some ⟨"config", 0x1000, 0xffffc000, 0x2000, UIO_MEM_PHYS⟩))) :=
  have h := igbuio_setup_iomem_spec 0x1000 0x2000 (some 0xffffc000)
    (List.replicate MAX_UIO_MAPS none) 0 "config"
  have h2 := h.2 0xffffc000 rfl (by decide) (by decide)
  ⟨h.1, rfl, by decide, by decide, h2.1, h2.2⟩

/-! ## Claim C9 -/

/-- Claim C9 counterexample: A bus-reported config-space read failure
during a legacy-mode mask operation is *not* logged: the call emits no
kernel-log event at all (the source discards the accessor's return value
and has no log statement), while still returning success. -/
theorem igbuio_cfgfault_not_logged_cex :
    (igbuio_set_interrupt_mask true false ⟨.legacy, [], 0x123⟩ 1).ret = 0 ∧
    logCount (igbuio_set_interrupt_mask true false ⟨.legacy, [], 0x123⟩ 1).trace
      = 0 := by
  decide

/-- Per-descriptor MSI-X mask calls never log. -/
lemma msix_mask_irq_log_count (d : MsixEntryState) (state : Int) :
    logCount (igbuio_msix_mask_irq d state).2 = 0 := by
  simp only [igbuio_msix_mask_irq]
  split <;> split <;> simp [logCount, List.countP, List.countP.go]

lemma logCount_append (a b : List HwEvent) :
    logCount (a ++ b) = logCount a + logCount b :=
  List.countP_append _ _ _

lemma msixMaskList_log_count (l : List MsixEntryState) (state : Int) :
    logCount (msixMaskList l state).2 = 0 := by
  induction l with
  | nil => rfl
  | cons d ds ih =>
    simp only [msixMaskList]
    rw [logCount_append, msix_mask_irq_log_count, ih]

/-- Claim C9 amended: A config-space access that the bus reports as
failed during `set_mask` is silently ignored: nothing is logged, no
failure is propagated (the return value is `0` on every path, also under
normal operation), and a failed write leaves the hardware register
unchanged (the mask operation is simply not applied). -/
theorem igbuio_cfgfault_silent (udev : UioDev) (state : Int) (rf wf : Bool) :
    (igbuio_set_interrupt_mask rf wf udev state).ret = 0 ∧
    logCount (igbuio_set_interrupt_mask rf wf udev state).trace = 0 ∧
    (wf = true → (igbuio_set_interrupt_mask rf wf udev state).dev.cfg = udev.cfg) := by
  obtain ⟨m, l, cfg⟩ := udev
  cases m
  · -- legacy
    cases wf with
    | true =>
      cases rf <;>
        (simp only [igbuio_set_interrupt_mask, Bool.false_eq_true,
           eq_self_iff_true, if_true, if_false]
         split <;> split <;>
           exact ⟨rfl, by simp [logCount, List.countP, List.countP.go],
             fun _ => rfl⟩)
    | false =>
      cases rf <;>
        (simp only [igbuio_set_interrupt_mask, Bool.false_eq_true,
           eq_self_iff_true, if_true, if_false]
         split <;> split <;>
           exact ⟨rfl, by simp [logCount, List.countP, List.countP.go],
             fun hw => hw.elim⟩)
  · exact ⟨rfl, rfl, fun _ => rfl⟩
  · exact ⟨rfl, msixMaskList_log_count l state, fun _ => rfl⟩

/-- Witness for C9 (amended): a failing write on a legacy device leaves
the register unchanged and logs nothing. -/
theorem igbuio_cfgfault_silent_witness :
    ((igbuio_set_interrupt_mask false true ⟨.legacy, [], 0x777⟩ 0).ret = 0 ∧
      logCount (igbuio_set_interrupt_mask false true ⟨.legacy, [], 0x777⟩ 0).trace
        = 0 ∧
      (true = true →
        (igbuio_set_interrupt_mask false true ⟨.legacy, [], 0x777⟩ 0).dev.cfg =
          (⟨.legacy, [], 0x777⟩ : UioDev).cfg)) :=
  igbuio_cfgfault_silent ⟨.legacy, [], 0x777⟩ 0 false true
